import Mathlib

/-!
Verification of the BEEP CLI orchestration core (src/beep/cmd.py) against its
natural-language specification.

The development shallowly embeds the parts of cmd.py the claims touch:

* string/path helpers (os.path.basename, os.path.splitext, os.path.join,
  os.path.abspath, fnmatch) as executable Lean functions on String;
* Python dict-valued state (status_json, op_result, DEFAULT_HYPERPARAMETERS)
  as association lists with insert-or-replace semantics (dinsert);
* the s3 token-resolution block of the structure command (lines 362..399);
* output-destination computation of the structure command (lines 410..438);
* the featurizer selection and hyperparameter-merge phase of the featurize
  command (lines 628..686);
* the per-file / per-step processing loops of both commands, with each
  step's domain behaviour (validate / structure / featurize raising or
  succeeding) abstracted as a parameter, mirroring the fact that the domain
  algorithms are external collaborators of the orchestration core.

Wall-clock timings, md5 checksums and log output are IO effects that do not
influence control flow or the shape of the report; they are omitted from the
embedded outcome records (walltime, raw_md5_chksum, processed_md5_chksum,
op_md5_chksum fields, and the validation_schema field read from the loaded
data).  KeyboardInterrupt (operator cancellation) is likewise not modelled:
no claim below concerns it.
-/

/-! ## Python dict as an association list (insert-or-replace) -/

/-- Insertion into a Python-dict-like association list: `d[k] = v` replaces
the binding of `k` if present, otherwise appends it (Python dicts keep
insertion order). -/
def dinsert (k : String) (v : α) : List (String × α) → List (String × α)
  | [] => [(k, v)]
  | (k₀, v₀) :: rest =>
    if k₀ = k then (k, v) :: rest else (k₀, v₀) :: dinsert k v rest

/-- Dict lookup: first (and, for dicts built by `dinsert`, only) binding. -/
def lookupD (k : String) : List (String × α) → Option α
  | [] => none
  | (k₀, v) :: rest => if k₀ = k then some v else lookupD k rest

/-- Number of bindings of key `k` in an association list. -/
def countKey (k : String) (l : List (String × α)) : Nat :=
  (l.filter (fun kv => kv.1 = k)).length

/-- Dict invariant: every key has at most one binding. -/
def Dictlike (l : List (String × α)) : Prop :=
  ∀ k, countKey k l ≤ 1

theorem dictlike_nil : Dictlike ([] : List (String × α)) := by
  intro k; simp [countKey]

theorem countKey_cons (k : String) (kv : String × α) (l : List (String × α)) :
    countKey k (kv :: l) = (if kv.1 = k then 1 else 0) + countKey k l := by
  by_cases h : kv.1 = k
  · simp [countKey, List.filter_cons, h]
    omega
  · simp [countKey, List.filter_cons, h]

theorem dictlike_tail {kv : String × α} {l : List (String × α)}
    (h : Dictlike (kv :: l)) : Dictlike l := by
  intro k
  have := h k
  rw [countKey_cons] at this
  omega

theorem countKey_dinsert_self (k : String) (v : α) (l : List (String × α))
    (h : Dictlike l) : countKey k (dinsert k v l) = 1 := by
  induction l with
  | nil => simp [dinsert, countKey, List.filter_cons]
  | cons kv rest ih =>
    obtain ⟨k₀, v₀⟩ := kv
    by_cases hk : k₀ = k
    · have h1 := h k
      rw [countKey_cons] at h1
      simp [hk] at h1
      have hrest : countKey k rest = 0 := by omega
      simp [dinsert, hk, countKey_cons, hrest]
    · have := ih (dictlike_tail h)
      simp [dinsert, hk, countKey_cons, this]

theorem countKey_dinsert_ne (k k' : String) (v : α) (l : List (String × α))
    (h : k ≠ k') : countKey k' (dinsert k v l) = countKey k' l := by
  induction l with
  | nil => simp [dinsert, countKey_cons, h, countKey]
  | cons kv rest ih =>
    obtain ⟨k₀, v₀⟩ := kv
    by_cases hk : k₀ = k
    · subst hk
      simp [dinsert, countKey_cons, h]
    · simp [dinsert, hk, countKey_cons, ih]

theorem dictlike_dinsert (k : String) (v : α) (l : List (String × α))
    (h : Dictlike l) : Dictlike (dinsert k v l) := by
  intro k'
  by_cases hk : k = k'
  · subst hk
    rw [countKey_dinsert_self k v l h]
  · rw [countKey_dinsert_ne k k' v l hk]
    exact h k'

theorem lookupD_dinsert_self (k : String) (v : α) (l : List (String × α)) :
    lookupD k (dinsert k v l) = some v := by
  induction l with
  | nil => simp [dinsert, lookupD]
  | cons kv rest ih =>
    obtain ⟨k₀, v₀⟩ := kv
    by_cases hk : k₀ = k
    · simp [dinsert, hk, lookupD]
    · simp [dinsert, hk, lookupD, ih]

theorem lookupD_dinsert_ne (k k' : String) (v : α) (l : List (String × α))
    (h : k ≠ k') : lookupD k' (dinsert k v l) = lookupD k' l := by
  induction l with
  | nil => simp [dinsert, lookupD, h]
  | cons kv rest ih =>
    obtain ⟨k₀, v₀⟩ := kv
    by_cases hk : k₀ = k
    · subst hk
      simp [dinsert, lookupD, h]
    · simp [dinsert, hk, lookupD, ih]

theorem lookupD_eq_none_of_not_mem (k : String) (l : List (String × α))
    (h : k ∉ l.map Prod.fst) : lookupD k l = none := by
  induction l with
  | nil => rfl
  | cons kv rest ih =>
    obtain ⟨k₀, v₀⟩ := kv
    simp only [List.map_cons, List.mem_cons] at h
    push_neg at h
    have h0 : k₀ ≠ k := fun hh => h.1 hh.symm
    simp [lookupD, h0, ih h.2]

/-! ## Path and string helpers (os.path) -/

/-- os.path.basename: the component after the last slash. -/
def basename (p : String) : String :=
  ⟨(p.data.reverse.takeWhile (fun c => c ≠ '/')).reverse⟩

/-- A path is absolute when it starts with a slash (posix os.path.isabs). -/
def isAbs (p : String) : Bool :=
  match p.data with
  | [] => false
  | c :: _ => c = '/'

/-- os.path.join for two components (posix): an absolute second component
discards the first; otherwise the parts are joined with a slash unless one
is already present or the first part is empty. -/
def pathJoin (a b : String) : String :=
  if isAbs b then b
  else if a = "" then b
  else if a.data.getLast? = some '/' then a ++ b
  else a ++ "/" ++ b

/-- Index of the last '.' in a list of characters, if any. -/
def lastDotIdx : List Char → Option Nat
  | [] => none
  | c :: rest =>
    match lastDotIdx rest with
    | some i => some (i + 1)
    | none => if c = '.' then some 0 else none

/-- os.path.splitext on a basename: split at the last dot unless every
character before that dot is itself a dot (so ".bashrc" has no extension). -/
def splitext (s : String) : String × String :=
  match lastDotIdx s.data with
  | none => (s, "")
  | some i =>
    if (s.data.take i).all (fun c => c = '.') then (s, "")
    else (⟨s.data.take i⟩, ⟨s.data.drop i⟩)

/-- os.path.abspath relative to a working directory.  The normalisation of
"." and ".." segments done by Python's normpath is not modelled; no claim
depends on it. -/
def abspath (cwd p : String) : String :=
  if isAbs p then p else pathJoin cwd p

/-- cmd.py line 58: suffix appended by the structure command. -/
def STRUCTURED_SUFFIX : String := "-structured"

/-- cmd.py add_suffix (lines 83..104): insert a suffix before the extension
of the basename of full_path (optionally replacing the extension) and place
the result in output_dir. -/
def add_suffix (full_path output_dir suffix : String)
    (modified_ext : Option String) : String :=
  let b := basename full_path
  let se := splitext b
  let ext := match modified_ext with | some e => e | none => se.2
  let new_basename := se.1 ++ suffix ++ ext
  pathJoin output_dir new_basename

/-! ## fnmatch (shell-style glob matching) -/

/-- Fuel-driven matcher for shell globs with '*' (any sequence) and '?'
(any one character); character classes are not modelled (no claim uses
them).  Each recursive call strictly decreases pattern length plus string
length, so fuel = |p| + |s| + 1 always suffices. -/
def globMatchAux : Nat → List Char → List Char → Bool
  | 0, _, _ => false
  | _ + 1, [], [] => true
  | _ + 1, [], _ :: _ => false
  | fuel + 1, '*' :: ps, [] => globMatchAux fuel ps []
  | fuel + 1, '*' :: ps, c :: s =>
    globMatchAux fuel ps (c :: s) || globMatchAux fuel ('*' :: ps) s
  | _ + 1, _ :: _, [] => false
  | fuel + 1, q :: ps, c :: s => (q = '?' || q = c) && globMatchAux fuel ps s

/-- fnmatch.fnmatch: whole-string shell-glob match. -/
def globMatch (pat s : String) : Bool :=
  globMatchAux (pat.data.length + s.data.length + 1) pat.data s.data

/-- fnmatch.filter(names, pat): the names matching the pattern. -/
def fnmatchFilter (names : List String) (pat : String) : List String :=
  names.filter (fun n => globMatch pat n)

/-- Python: `"*" in token`. -/
def hasStar (t : String) : Bool :=
  t.data.contains '*'

/-! ## structure command: s3 token resolution (cmd.py lines 362..399) -/

/-- An element of the Python list s3_keys_matched.  The literal branch
(line 375) appends a single key string; the glob branch (line 385) appends
the whole list of matching keys as ONE element (append, not extend), so the
list is heterogeneous — mirrored here by a sum-like inductive. -/
inductive S3Entry
  | key (k : String)
  | keyList (ks : List String)
deriving DecidableEq

/-- Token classification loop (lines 369..387): a token without '*' goes to
s3_keys_matched when it equals an s3 key and to local_files otherwise (the
local filesystem is NOT consulted here); a token with '*' goes to
s3_keys_matched as the whole fnmatch result when nonempty, else to
local_files. -/
def classifyTokens (s3keys : List String) :
    List String → List S3Entry × List String
  | [] => ([], [])
  | tok :: rest =>
    let r := classifyTokens s3keys rest
    if !hasStar tok then
      if s3keys.contains tok then (.key tok :: r.1, r.2)
      else (r.1, tok :: r.2)
    else
      let matching := fnmatchFilter s3keys tok
      if !matching.isEmpty then (.keyList matching :: r.1, r.2)
      else (r.1, tok :: r.2)

/-- Fetch loop (lines 390..398): each entry is fetched to
pardir/basename(key).  On a keyList entry, os.path.basename is applied to a
Python list, raising TypeError before any further fetch (third component
true = crashed). -/
def fetchPhase (pardir : String) : List S3Entry → List String × List String × Bool
  | [] => ([], [], false)
  | .key k :: rest =>
    let r := fetchPhase pardir rest
    (pathJoin pardir (basename k) :: r.1, k :: r.2.1, r.2.2)
  | .keyList _ :: _ => ([], [], true)

/-- Result of the s3 resolution block: the final file list (local tokens
then fetched files, line 399), the keys actually fetched, and whether the
block raised TypeError. -/
structure S3Resolution where
  files : List String
  fetched : List String
  typeError : Bool
deriving DecidableEq

/-- cmd.py lines 362..399: resolve the token list against the s3 listing.
pardir is S3_CACHE or the cwd (line 393). -/
def resolveS3 (s3keys : List String) (pardir : String)
    (tokens : List String) : S3Resolution :=
  let c := classifyTokens s3keys tokens
  let f := fetchPhase pardir c.1
  ⟨c.2 ++ f.1, f.2.1, f.2.2⟩

/-! ## structure command: output destinations (cmd.py lines 410..438) -/

/-- Whole-run (caller-mistake or re-raised) errors that escape to the
invocation boundary. -/
inductive CmdError
  | fileNotFound (f : String)
  | outputCountMismatch (nIn nOut : Nat)
  | reraised (exc : String)
  | uncaught (exc : String)
deriving DecidableEq

/-- The computed output destinations plus whether the "both --output-filenames
and --output-dir" warning (line 420) was logged. -/
structure OutputPlan where
  outputs : List String
  warned : Bool
deriving DecidableEq

instance {ε α : Type} [DecidableEq ε] [DecidableEq α] :
    DecidableEq (Except ε α) := fun a b =>
  match a, b with
  | .ok x, .ok y =>
    if h : x = y then .isTrue (by rw [h]) else .isFalse (by simp [h])
  | .error x, .error y =>
    if h : x = y then .isTrue (by rw [h]) else .isFalse (by simp [h])
  | .ok _, .error _ => .isFalse (by simp)
  | .error _, .ok _ => .isFalse (by simp)

/-- cmd.py lines 410..438.  An output dir selects auto-naming inside it and
merely warns when explicit filenames were also given; otherwise explicit
filenames are used after a count check; otherwise auto-naming in the cwd. -/
def computeOutputFiles (cwd : String) (files : List String)
    (output_filenames : List String) (output_dir : Option String) :
    Except CmdError OutputPlan :=
  match output_dir with
  | some d =>
    let dAbs := abspath cwd d
    .ok ⟨files.map (fun f => add_suffix f dAbs STRUCTURED_SUFFIX (some ".json.gz")),
         !output_filenames.isEmpty⟩
  | none =>
    if !output_filenames.isEmpty then
      let outs := output_filenames.map (abspath cwd)
      if files.length ≠ outs.length then
        .error (.outputCountMismatch files.length outs.length)
      else .ok ⟨outs, false⟩
    else
      .ok ⟨files.map (fun f => add_suffix f cwd STRUCTURED_SUFFIX (some ".json.gz")),
           false⟩

/-! ## structure command: per-file loop (cmd.py lines 470..534) -/

/-- Domain behaviour of one file under the structure pipeline (auto_load,
validate, structure, to_json_file), abstracted: these are external
collaborators of the orchestration core.  raisedLoad covers an exception
before validation succeeded (md5sum, auto_load, validate itself raising);
invalid is a validate() returning False, which line 498 turns into a raised
BeepValidationError; raisedStructure is an exception after successful
validation (autostructure / structure / to_json_file). -/
inductive SResult
  | success
  | invalid (reason : String)
  | raisedLoad (exc : String)
  | raisedStructure (exc : String)
deriving DecidableEq

/-- The op_result dict of the structure command (lines 473..481, walltime,
raw_md5_chksum and validation_schema fields omitted as IO-only). -/
structure StructOutcome where
  validated : Bool
  structured : Bool
  output : Option String
  traceback : Option String
deriving DecidableEq

/-- How one structure-command iteration fills op_result, given the file's
behaviour and its destination (validation_only skips structuring). -/
def structOutcome (validation_only : Bool) (outFile : String) :
    SResult → StructOutcome
  | .success =>
    if validation_only then ⟨true, false, none, none⟩
    else ⟨true, true, some outFile, none⟩
  | .invalid r => ⟨false, false, none, some ("BeepValidationError: " ++ r)⟩
  | .raisedLoad e => ⟨false, false, none, some e⟩
  | .raisedStructure e => ⟨true, false, none, some e⟩

/-- The exception text an SResult re-raises under halt_on_error. -/
def sresultExc : SResult → String
  | .success => ""
  | .invalid r => "BeepValidationError: " ++ r
  | .raisedLoad e => e
  | .raisedStructure e => e

/-- The per-file loop of the structure command (lines 472..534): on an
exception with halt_on_error the re-raise (line 530) skips the
status_json[f] assignment of line 534, so the failing file and all later
files get no entry. -/
def structureLoop (halt validation_only : Bool) (behave : String → SResult)
    (acc : List (String × StructOutcome)) :
    List (String × String) → List (String × StructOutcome) × Option CmdError
  | [] => (acc, none)
  | (f, out) :: rest =>
    let r := behave f
    match r with
    | .success =>
      structureLoop halt validation_only behave
        (dinsert f (structOutcome validation_only out .success) acc) rest
    | _ =>
      if halt then (acc, some (.reraised (sresultExc r)))
      else
        structureLoop halt validation_only behave
          (dinsert f (structOutcome validation_only out r) acc) rest

/-- cmd.py structure, lines 401..534, after the optional s3 block: absolutise
the file tokens, fail the whole run on a missing file (lines 403..405), then
compute destinations (lines 410..438) and run the per-file loop.  A caller
mistake yields an empty report. -/
def runStructure (halt validation_only : Bool) (cwd : String)
    (files output_filenames : List String) (output_dir : Option String)
    (onDisk : String → Bool) (behave : String → SResult) :
    List (String × StructOutcome) × Option CmdError :=
  match (files.map (abspath cwd)).find? (fun f => !onDisk f) with
  | some f => ([], some (.fileNotFound f))
  | none =>
    match computeOutputFiles cwd (files.map (abspath cwd)) output_filenames output_dir with
    | .error e => ([], some e)
    | .ok plan =>
      structureLoop halt validation_only behave []
        ((files.map (abspath cwd)).zip plan.outputs)

/-! ## featurize command: featurizer selection (cmd.py lines 628..657) -/

/-- cmd.py lines 628..635: the core featurizer classes, by class name, in
list order. -/
def coreFClassNames : List String :=
  ["HPPCResistanceVoltageFeatures", "DeltaQFastCharge", "TrajectoryFastCharge",
   "CycleSummaryStats", "DiagnosticProperties", "DiagnosticSummaryStats"]

/-- cmd.py line 636: core classes plus the intracell featurizers. -/
def nativeFClassNames : List String :=
  coreFClassNames ++ ["IntracellCycles", "IntracellFeatures"]

/-- cmd.py lines 642..643: when the selection list contains "all", the whole
list is replaced by the keys of core_fclasses_map (the six core names). -/
def expandFeaturizeWith (featurize_with : List String) : List String :=
  if featurize_with.contains "all" then coreFClassNames else featurize_with

/-! ## featurize command: hyperparameter merge (cmd.py lines 645..686) -/

/-- cmd.py line 683: Python dict.update — every binding of u is written into
d in order, replacing existing keys and appending new ones. -/
def updateConfig (d u : List (String × α)) : List (String × α) :=
  u.foldl (fun acc kv => dinsert kv.1 kv.2 acc) d

/-- cmd.py lines 661..686, for the hyperparameter part.  The store models
the per-class DEFAULT_HYPERPARAMETERS class attribute.  For each
(class-name, optional user params) entry: hps is bound to the class's
current DEFAULT_HYPERPARAMETERS object (line 683), and hps.update(params)
(line 685) mutates that very object, so the store is written back exactly
when user params are present.  The second component collects the
fclass_tuples list of (class name, effective hyperparameters) in order
(line 686).  External-module import resolution (lines 662..680) is not
modelled: the store is total over class names, and the claims below only
involve native classes. -/
def configMergeFold (store : String → List (String × α)) :
    List (String × Option (List (String × α))) →
      (String → List (String × α)) × List (String × List (String × α))
  | [] => (store, [])
  | (cname, none) :: rest =>
    ((configMergeFold store rest).1,
     (cname, store cname) :: (configMergeFold store rest).2)
  | (cname, some u) :: rest =>
    ((configMergeFold
        (fun c => if c = cname then updateConfig (store cname) u else store c)
        rest).1,
     (cname, updateConfig (store cname) u) ::
       (configMergeFold
          (fun c => if c = cname then updateConfig (store cname) u else store c)
          rest).2)

/-- cmd.py lines 642..686 end to end: expand "all", pair the selected names
with no params (line 647), append the user-hyperparameter entries
(lines 650..657, the string parsing of ast.literal_eval is not modelled:
entries arrive parsed), then run the merge fold over the declared defaults.
Returns (final DEFAULT_HYPERPARAMETERS store, fclass_tuples). -/
def featurizeConfigPhase (declared : String → List (String × α))
    (featurize_with : List String)
    (featurize_with_hyperparams : List (String × List (String × α))) :
    (String → List (String × α)) × List (String × List (String × α)) :=
  let names := expandFeaturizeWith featurize_with
  let entries := names.map (fun n => (n, (none : Option (List (String × α)))))
    ++ featurize_with_hyperparams.map (fun p => (p.1, some p.2))
  configMergeFold declared entries

/-! ## featurize command: per-file / per-featurizer loops (lines 693..770) -/

/-- Domain behaviour of one (featurizer, file) application, abstracted over
the external featurizer implementation: construction (line 723), validate
(line 728), create_features (line 736) and dumpfn/md5 of the output
(lines 743..747) may each raise; validate may return False with a reason,
which line 734 turns into a raised BEEPFeaturizationError. -/
inductive FResult
  | ok
  | invalid (reason : String)
  | raisedConstruct (exc : String)
  | raisedValidate (exc : String)
  | raisedCreate (exc : String)
  | raisedDump (exc : String)
deriving DecidableEq

/-- The op_subresult dict (lines 710..717; walltime and op_md5_chksum
omitted as IO-only). -/
structure FeatOutcome where
  output : Option String
  valid : Bool
  featurized : Bool
  traceback : Option String
deriving DecidableEq

/-- How one featurize iteration fills op_subresult: fields are set at the
point in the try body that the behaviour reaches (valid at line 731,
featurized at line 737 before the dump, output at line 746 after it). -/
def featOutcome (outPath : String) : FResult → FeatOutcome
  | .ok => ⟨some outPath, true, true, none⟩
  | .invalid r => ⟨none, false, false, some ("BEEPFeaturizationError: " ++ r)⟩
  | .raisedConstruct e => ⟨none, false, false, some e⟩
  | .raisedValidate e => ⟨none, false, false, some e⟩
  | .raisedCreate e => ⟨none, true, false, some e⟩
  | .raisedDump e => ⟨none, true, true, some e⟩

/-- The exception text an FResult re-raises under halt_on_error. -/
def fresultExc : FResult → String
  | .ok => ""
  | .invalid r => "BEEPFeaturizationError: " ++ r
  | .raisedConstruct e => e
  | .raisedValidate e => e
  | .raisedCreate e => e
  | .raisedDump e => e

/-- cmd.py lines 741..742: each featurizer's output file is the class name,
a dash, and the input file's basename, inside the output dir. -/
def featurizeOutputPath (output_dir file fclass_name : String) : String :=
  pathJoin output_dir (fclass_name ++ "-" ++ basename file)

/-- One configured featurizer application: its class name and its behaviour
on each (absolutised) input file. -/
structure FStep where
  name : String
  behave : String → FResult

/-- Whether an FResult is a failure, i.e. the try body raised (directly or
via the line 734 re-raise of an invalid validation). -/
def stepFails : FResult → Bool
  | .ok => false
  | _ => true

/-- The inner featurizer loop (lines 709..765).  On a failure with
halt_on_error the re-raise (line 761) skips both the op_result[fclass_name]
assignment (line 765) and the status_json[file] assignment (line 769), so
the partially built op_result is discarded; without halt_on_error the
failure outcome is recorded and the loop continues. -/
def featurizeStepsLoop (halt : Bool) (output_dir file : String)
    (acc : List (String × FeatOutcome)) :
    List FStep → List (String × FeatOutcome) × Option CmdError
  | [] => (acc, none)
  | st :: rest =>
    if stepFails (st.behave file) && halt then
      (acc, some (.reraised (fresultExc (st.behave file))))
    else
      featurizeStepsLoop halt output_dir file
        (dinsert st.name
          (featOutcome (featurizeOutputPath output_dir file st.name) (st.behave file))
          acc)
        rest

/-- The outer file loop (lines 695..770).  md5sum(file) (line 701) and
auto_load_processed(file) (line 706) run outside any try block: loads gives
the exception they raise, if any, which terminates the run regardless of
halt_on_error. -/
def featurizeFilesLoop (halt : Bool) (output_dir : String) (steps : List FStep)
    (loads : String → Option String)
    (acc : List (String × List (String × FeatOutcome))) :
    List String → List (String × List (String × FeatOutcome)) × Option CmdError
  | [] => (acc, none)
  | f :: rest =>
    match loads f with
    | some e => (acc, some (.uncaught e))
    | none =>
      match (featurizeStepsLoop halt output_dir f [] steps).2 with
      | some e => (acc, some e)
      | none =>
        featurizeFilesLoop halt output_dir steps loads
          (dinsert f (featurizeStepsLoop halt output_dir f [] steps).1 acc) rest

/-- cmd.py line 624: the output dir is the absolutised --output-dir when
given, else the cwd. -/
def featurizeOutDir (cwd : String) (output_dir : Option String) : String :=
  match output_dir with
  | some d => abspath cwd d
  | none => cwd

/-- cmd.py featurize, lines 622..770, after the configuration phase:
absolutise the input files and the output dir (default cwd, line 624) and
run the loops.  The step list carries, per configured featurizer, its class
name and its domain behaviour. -/
def runFeaturize (halt : Bool) (cwd : String) (files : List String)
    (output_dir : Option String) (steps : List FStep)
    (loads : String → Option String) :
    List (String × List (String × FeatOutcome)) × Option CmdError :=
  featurizeFilesLoop halt (featurizeOutDir cwd output_dir)
    steps loads [] (files.map (abspath cwd))

/-! ## Theorems for the claims -/

/-- Claim C2 (code bug).  The claim — and the --s3-bucket option's own help
text, cmd.py lines 299..302 ("Paths matching local files will be prioritized
over files with identical paths/globs in s3") — says a literal token naming
both an existing local file and an s3 key resolves to the local file with no
fetch.  The code (lines 373..377) tests membership in the s3 listing FIRST
and never consults the local filesystem, so the token "a.csv", present both
locally and as an s3 key, is fetched from s3 (one fetch, not zero) and the
resolved list holds the download destination cwd/a.csv, not the local file
as such — indeed the download can overwrite the local copy. -/
theorem literal_local_token_fetched_from_s3 :
    resolveS3 ["a.csv"] "/w" ["a.csv"] =
      ⟨["/w/a.csv"], ["a.csv"], false⟩ ∧
    (resolveS3 ["a.csv"] "/w" ["a.csv"]).fetched ≠ [] := by decide

/-- Claim C8 (code bug).  The claim says a glob token matching 3 s3 keys,
one also naming a local file, yields exactly 2 fetches and a 3-file list.
The code cannot do this: line 385 appends the entire fnmatch result LIST as
a single element of s3_keys_matched (append, not extend), so the fetch loop
(line 392) applies os.path.basename to a Python list and raises TypeError
before any fetch; moreover the glob branch has no local-file skip at all.
At the claimed scenario the run crashes with 0 fetches and no file list. -/
theorem s3_glob_raises_type_error :
    resolveS3 ["k1.csv", "k2.csv", "k3.csv"] "/w" ["k*.csv"] =
      ⟨[], [], true⟩ ∧
    globMatch "k*.csv" "k1.csv" = true ∧
    globMatch "k*.csv" "k2.csv" = true ∧
    globMatch "k*.csv" "k3.csv" = true := by decide

/-- Claim C3, counterexample.  With both explicit output filenames and an
explicit output directory supplied, the claim says the explicit filenames
win; the code (cmd.py lines 410..423, "Output dir overrules output
filenames") auto-names inside the output dir and only warns.  Concretely the
explicit filename /w/out.json is NOT among the destinations. -/
theorem output_filenames_lose_to_output_dir :
    computeOutputFiles "/w" ["/w/a.csv"] ["/w/out.json"] (some "/d")
      = .ok ⟨["/d/a-structured.json.gz"], true⟩ ∧
    (computeOutputFiles "/w" ["/w/a.csv"] ["/w/out.json"] (some "/d")
      ≠ .ok ⟨["/w/out.json"], true⟩) := by decide

/-- Claim C3 (amended).  The actual precedence is: explicit output directory
(with auto-naming and a warning when filenames were also given) over
explicit output filenames, and explicit output filenames over auto-naming
in the current working directory. -/
theorem output_destination_precedence
    (cwd : String) (files fnames : List String) (d : String)
    (hne : fnames ≠ []) (hlen : fnames.length = files.length) :
    computeOutputFiles cwd files fnames (some d) =
      .ok ⟨files.map
            (fun f => add_suffix f (abspath cwd d) STRUCTURED_SUFFIX (some ".json.gz")),
           !fnames.isEmpty⟩ ∧
    computeOutputFiles cwd files fnames none =
      .ok ⟨fnames.map (abspath cwd), false⟩ ∧
    computeOutputFiles cwd files [] none =
      .ok ⟨files.map (fun f => add_suffix f cwd STRUCTURED_SUFFIX (some ".json.gz")),
           false⟩ := by
  refine ⟨rfl, ?_, rfl⟩
  have h1 : fnames.isEmpty = false := by
    cases fnames with
    | nil => exact absurd rfl hne
    | cons a l => rfl
  simp [computeOutputFiles, h1, List.length_map, hlen]

/-- Witness for output_destination_precedence at a concrete invocation. -/
theorem output_destination_precedence_witness :
    computeOutputFiles "/w" ["/w/a.csv"] ["o.json"] (some "/d") =
      .ok ⟨["/w/a.csv"].map
            (fun f => add_suffix f (abspath "/w" "/d") STRUCTURED_SUFFIX (some ".json.gz")),
           true⟩ ∧
    computeOutputFiles "/w" ["/w/a.csv"] ["o.json"] none =
      .ok ⟨["o.json"].map (abspath "/w"), false⟩ ∧
    computeOutputFiles "/w" ["/w/a.csv"] [] none =
      .ok ⟨["/w/a.csv"].map (fun f => add_suffix f "/w" STRUCTURED_SUFFIX (some ".json.gz")),
           false⟩ :=
  output_destination_precedence "/w" ["/w/a.csv"] ["o.json"] "/d"
    (by decide) (by decide)

/-- Claim C4, counterexample.  The claim says "all" expands to the full
NATIVE step set; cmd.py lines 642..643 expand it to the keys of
core_fclasses_map only, which excludes the native IntracellCycles and
IntracellFeatures classes, so even an explicitly named IntracellCycles is
absent from the applied set. -/
theorem all_expansion_is_core_not_native :
    expandFeaturizeWith ["all", "IntracellCycles"] = coreFClassNames ∧
    "IntracellCycles" ∈ nativeFClassNames ∧
    "IntracellCycles" ∉ expandFeaturizeWith ["all", "IntracellCycles"] ∧
    expandFeaturizeWith ["all", "IntracellCycles"] ≠ nativeFClassNames := by decide

/-- Claim C4 (amended).  If the selection list contains "all", the applied
set is exactly the six-element CORE step set (the native set minus the
intracell featurizers), and every other explicitly selected name is
dropped; the drop is documented in the option's help text (lines 593..594)
but no runtime warning is logged. -/
theorem all_token_expands_to_core (featurize_with : List String)
    (h : featurize_with.contains "all" = true) :
    expandFeaturizeWith featurize_with = coreFClassNames := by
  unfold expandFeaturizeWith
  rw [h]
  rfl

/-- Witness for all_token_expands_to_core. -/
theorem all_token_expands_to_core_witness :
    expandFeaturizeWith ["all", "DeltaQFastCharge"] = coreFClassNames :=
  all_token_expands_to_core ["all", "DeltaQFastCharge"] (by decide)

/-- Claim C5, counterexample.  The claim says configuration keys are
restricted to the step's recognized option set and an unrecognized key is
rejected before the step instance is constructed.  cmd.py lines 682..686
apply dict.update with no key check at all: with declared defaults
recognizing only "test_time", a user override with the unrecognized key
"bogus" flows straight into the effective configuration of the second
configured tuple (the one carrying user params), and the configuration
phase completes normally — nothing is rejected before construction. -/
theorem unrecognized_key_not_rejected :
    (featurizeConfigPhase (fun _ => [("test_time", (42 : Nat))])
      ["CycleSummaryStats"] [("CycleSummaryStats", [("bogus", 7)])]).2
    = [("CycleSummaryStats", [("test_time", 42)]),
       ("CycleSummaryStats", [("test_time", 42), ("bogus", 7)])] ∧
    "bogus" ∉ ([("test_time", (42 : Nat))].map Prod.fst) := by decide

/-- Claim C5 (amended).  The effective configuration is the declared
defaults updated with the user-supplied values: a user-supplied key (known
or unknown) gets the user's value, any other key keeps its default.  No key
restriction is applied and nothing is rejected before construction; an
unknown key is simply carried into the effective configuration (and the
same update mutates the declared defaults in place, see C10). -/
theorem effective_config_merge_law {α : Type} (d u : List (String × α))
    (k : String) (hu : (u.map Prod.fst).Nodup) :
    lookupD k (updateConfig d u) =
      match lookupD k u with
      | some v => some v
      | none => lookupD k d := by
  induction u generalizing d with
  | nil => simp [updateConfig, lookupD]
  | cons kv rest ih =>
    obtain ⟨k₀, v₀⟩ := kv
    simp only [List.map_cons, List.nodup_cons] at hu
    have step : updateConfig d ((k₀, v₀) :: rest) = updateConfig (dinsert k₀ v₀ d) rest := rfl
    rw [step, ih (dinsert k₀ v₀ d) hu.2]
    by_cases hk : k₀ = k
    · subst hk
      have hnone : lookupD k₀ rest = none :=
        lookupD_eq_none_of_not_mem _ _ hu.1
      rw [hnone]
      simp [lookupD, lookupD_dinsert_self]
    · simp [lookupD, hk, lookupD_dinsert_ne k₀ k v₀ d hk]

/-- Witness for effective_config_merge_law: the unknown key "bogus" ends up
in the merged configuration with the user's value. -/
theorem effective_config_merge_law_witness :
    lookupD "bogus" (updateConfig [("test_time", (42 : Nat))] [("bogus", 7)]) =
      match lookupD "bogus" [("bogus", (7 : Nat))] with
      | some v => some v
      | none => lookupD "bogus" [("test_time", (42 : Nat))] :=
  effective_config_merge_law [("test_time", 42)] [("bogus", 7)] "bogus" (by decide)

/-- Claim C6, counterexample.  With an output directory ALSO supplied, a
1-filename / 2-files mismatch is not checked at all (lines 419..423 only
warn): the run proceeds and produces two report entries instead of failing
fast. -/
theorem output_count_mismatch_ignored_with_dir :
    (runStructure false false "/w" ["/w/a.csv", "/w/b.csv"] ["o.json"] (some "/d")
      (fun _ => true) (fun _ => .success)).2 = none ∧
    (runStructure false false "/w" ["/w/a.csv", "/w/b.csv"] ["o.json"] (some "/d")
      (fun _ => true) (fun _ => .success)).1.length = 2 := by decide

/-- Claim C6 (amended).  When no explicit output directory is supplied,
explicit output filenames whose count differs from the input count fail the
whole run (ValueError, lines 428..432) before any per-file processing: the
report is empty whatever the per-file behaviours would have been. -/
theorem output_count_mismatch_fails_fast
    (halt validation_only : Bool) (cwd : String) (files outFnames : List String)
    (onDisk : String → Bool) (behave : String → SResult)
    (hne : outFnames ≠ []) (hlen : files.length ≠ outFnames.length)
    (hex : ∀ f, onDisk f = true) :
    runStructure halt validation_only cwd files outFnames none onDisk behave
      = ([], some (.outputCountMismatch files.length outFnames.length)) := by
  unfold runStructure
  have hfind : (files.map (abspath cwd)).find? (fun f => !onDisk f) = none := by
    rw [List.find?_eq_none]
    intro x hx
    simp [hex x]
  rw [hfind]
  have h1 : outFnames.isEmpty = false := by
    cases outFnames with
    | nil => exact absurd rfl hne
    | cons a l => rfl
  simp [computeOutputFiles, h1, List.length_map, hlen]

/-- Witness for output_count_mismatch_fails_fast: one explicit filename for
two inputs, every file present on disk, all behaviours succeeding. -/
theorem output_count_mismatch_fails_fast_witness :
    runStructure true false "/w" ["/w/a.csv", "/w/b.csv"] ["o.json"] none
      (fun _ => true) (fun _ => .success)
      = ([], some (.outputCountMismatch 2 1)) :=
  output_count_mismatch_fails_fast true false "/w" ["/w/a.csv", "/w/b.csv"]
    ["o.json"] (fun _ => true) (fun _ => .success)
    (by decide) (by decide) (fun _ => rfl)

/-! ## Claim C9: distinct featurizer names give distinct output paths -/

theorem strAppend_cancel_left {a b c : String} (h : a ++ b = a ++ c) : b = c := by
  have hd := congrArg String.data h
  rw [String.data_append, String.data_append] at hd
  exact String.ext (List.append_cancel_left hd)

theorem strAppend_cancel_right {a b c : String} (h : a ++ c = b ++ c) : a = b := by
  have hd := congrArg String.data h
  rw [String.data_append, String.data_append] at hd
  exact String.ext (List.append_cancel_right hd)

theorem dashAppend_cancel {s1 s2 b : String}
    (h : s1 ++ "-" ++ b = s2 ++ "-" ++ b) : s1 = s2 :=
  strAppend_cancel_right (strAppend_cancel_right h)

/-- A featurizer output filename "name-basename" is never an absolute path
when the name does not itself start with a slash. -/
theorem isAbs_name_dash (s b : String) (h : s.data.head? ≠ some '/') :
    isAbs (s ++ "-" ++ b) = false := by
  unfold isAbs
  cases hs : s.data with
  | nil =>
    have hdata : (s ++ "-" ++ b).data = '-' :: b.data := by
      rw [String.data_append, String.data_append, hs]
      rfl
    rw [hdata]
    simp
  | cons c cs =>
    have hc : c ≠ '/' := by
      intro hcc
      apply h
      rw [hs, hcc]
      rfl
    have hdata : (s ++ "-" ++ b).data = c :: (cs ++ "-".data ++ b.data) := by
      rw [String.data_append, String.data_append, hs]
      simp
    rw [hdata]
    simp [hc]

/-- Claim C9 (confirmed).  cmd.py lines 741..742 name each featurizer's
output "fclass_name-basename(file)" inside the output dir, so two distinct
step identifiers applied to the same file get distinct destinations.  The
head hypotheses record that Python class names never start with '/'. -/
theorem featurize_output_paths_distinct (output_dir file s1 s2 : String)
    (hne : s1 ≠ s2)
    (h1 : s1.data.head? ≠ some '/') (h2 : s2.data.head? ≠ some '/') :
    featurizeOutputPath output_dir file s1 ≠ featurizeOutputPath output_dir file s2 := by
  intro heq
  apply hne
  unfold featurizeOutputPath pathJoin at heq
  rw [isAbs_name_dash s1 (basename file) h1,
      isAbs_name_dash s2 (basename file) h2] at heq
  simp only [Bool.false_eq_true, if_false] at heq
  by_cases hd0 : output_dir = ""
  · rw [if_pos hd0, if_pos hd0] at heq
    exact dashAppend_cancel heq
  · rw [if_neg hd0, if_neg hd0] at heq
    by_cases hd1 : output_dir.data.getLast? = some '/'
    · rw [if_pos hd1, if_pos hd1] at heq
      exact dashAppend_cancel (strAppend_cancel_left heq)
    · rw [if_neg hd1, if_neg hd1] at heq
      exact dashAppend_cancel (strAppend_cancel_left heq)

/-- Witness for featurize_output_paths_distinct on two native featurizers. -/
theorem featurize_output_paths_distinct_witness :
    featurizeOutputPath "/out" "/w/a.json" "DeltaQFastCharge" ≠
      featurizeOutputPath "/out" "/w/a.json" "CycleSummaryStats" :=
  featurize_output_paths_distinct "/out" "/w/a.json" "DeltaQFastCharge"
    "CycleSummaryStats" (by decide) (by decide) (by decide)

/-! ## Claim C10: in-place mutation of DEFAULT_HYPERPARAMETERS -/

/-- Entries for class C that carry no user params never write C's slot of
the DEFAULT_HYPERPARAMETERS store, and entries for other classes write only
their own slot. -/
theorem configMergeFold_store_pres {α : Type} (C : String)
    (es : List (String × Option (List (String × α))))
    (s : String → List (String × α))
    (h : ∀ e ∈ es, e.1 = C → e.2 = none) :
    (configMergeFold s es).1 C = s C := by
  induction es generalizing s with
  | nil => rfl
  | cons e rest ih =>
    obtain ⟨n, params⟩ := e
    cases params with
    | none =>
      exact ih s (fun e he hc => h e (List.mem_cons_of_mem _ he) hc)
    | some u =>
      have hn : n ≠ C := by
        intro hnc
        exact Option.noConfusion (h (n, some u) (List.mem_cons_self _ _) hnc)
      show (configMergeFold
        (fun c => if c = n then updateConfig (s n) u else s c) rest).1 C = s C
      rw [ih _ (fun e he hc => h e (List.mem_cons_of_mem _ he) hc)]
      rw [if_neg (fun hCn => hn hCn.symm)]

/-- If every entry for class C in the list carries no user params, every
fclass_tuples entry produced for C holds C's store value unchanged. -/
theorem configMergeFold_subsequent {α : Type} (C : String)
    (es : List (String × Option (List (String × α))))
    (s : String → List (String × α))
    (h : ∀ e ∈ es, e.1 = C → e.2 = none) :
    ∀ p ∈ (configMergeFold s es).2, p.1 = C → p.2 = s C := by
  induction es generalizing s with
  | nil =>
    intro p hp
    exact absurd hp (List.not_mem_nil p)
  | cons e rest ih =>
    obtain ⟨n, params⟩ := e
    cases params with
    | none =>
      intro p hp hpc
      rcases List.mem_cons.mp hp with h1 | h2
      · subst h1
        exact congrArg s hpc
      · exact ih s (fun e he hc => h e (List.mem_cons_of_mem _ he) hc) p h2 hpc
    | some u =>
      have hn : n ≠ C := by
        intro hnc
        exact Option.noConfusion (h (n, some u) (List.mem_cons_self _ _) hnc)
      intro p hp hpc
      rcases List.mem_cons.mp hp with h1 | h2
      · subst h1
        exact absurd hpc hn
      · have hrec := ih (fun c => if c = n then updateConfig (s n) u else s c)
          (fun e he hc => h e (List.mem_cons_of_mem _ he) hc) p h2 hpc
        rw [hrec]
        show (if C = n then updateConfig (s n) u else s C) = s C
        rw [if_neg (fun hCn => hn hCn.symm)]

/-- One fclass_tuples entry is produced per configured entry. -/
theorem configMergeFold_length {α : Type} (s : String → List (String × α))
    (es : List (String × Option (List (String × α)))) :
    (configMergeFold s es).2.length = es.length := by
  induction es generalizing s with
  | nil => rfl
  | cons e rest ih =>
    obtain ⟨n, params⟩ := e
    cases params with
    | none => simp [configMergeFold, ih]
    | some u => simp [configMergeFold, ih]

/-- Claim C10 (confirmed).  cmd.py line 683 binds hps to the class's
DEFAULT_HYPERPARAMETERS object itself and line 685 mutates it with
hps.update(fclass_params), so after an entry for class C with user
overrides u, (1) the class attribute holds defaults updated with u, and
(2) every configuration computed for C afterwards in the same invocation —
in particular entries supplied with NO user overrides — equals the mutated
value updateConfig (declared C) u rather than the originally declared
defaults; (3) one tuple is produced per configured entry. -/
theorem default_hyperparameters_mutated {α : Type}
    (declared : String → List (String × α)) (C : String) (u : List (String × α))
    (rest : List (String × Option (List (String × α))))
    (hrest : ∀ e ∈ rest, e.1 = C → e.2 = none) :
    (configMergeFold declared ((C, some u) :: rest)).1 C
        = updateConfig (declared C) u ∧
    (∀ p ∈ (configMergeFold declared ((C, some u) :: rest)).2,
        p.1 = C → p.2 = updateConfig (declared C) u) ∧
    (configMergeFold declared ((C, some u) :: rest)).2.length = rest.length + 1 := by
  refine ⟨?_, ?_, ?_⟩
  · show (configMergeFold
      (fun c => if c = C then updateConfig (declared C) u else declared c) rest).1 C
        = updateConfig (declared C) u
    rw [configMergeFold_store_pres C rest _ hrest]
    rw [if_pos rfl]
  · intro p hp hpc
    rcases List.mem_cons.mp hp with h1 | h2
    · subst h1
      rfl
    · have hrec := configMergeFold_subsequent C rest
        (fun c => if c = C then updateConfig (declared C) u else declared c)
        hrest p h2 hpc
      rw [hrec]
      show (if C = C then updateConfig (declared C) u else declared C)
          = updateConfig (declared C) u
      rw [if_pos rfl]
  · show ((C, updateConfig (declared C) u) :: (configMergeFold
      (fun c => if c = C then updateConfig (declared C) u else declared c) rest).2).length
        = rest.length + 1
    rw [List.length_cons, configMergeFold_length]

/-- Witness for default_hyperparameters_mutated: a second selection of
DeltaQFastCharge with no user params still receives the override x=5. -/
theorem default_hyperparameters_mutated_witness :
    (configMergeFold (fun _ => [("x", (1 : Nat))])
        [("DeltaQFastCharge", some [("x", 5)]), ("DeltaQFastCharge", none)]).1
        "DeltaQFastCharge"
      = updateConfig [("x", 1)] [("x", 5)] ∧
    (∀ p ∈ (configMergeFold (fun _ => [("x", (1 : Nat))])
        [("DeltaQFastCharge", some [("x", 5)]), ("DeltaQFastCharge", none)]).2,
        p.1 = "DeltaQFastCharge" → p.2 = updateConfig [("x", 1)] [("x", 5)]) ∧
    (configMergeFold (fun _ => [("x", (1 : Nat))])
        [("DeltaQFastCharge", some [("x", 5)]), ("DeltaQFastCharge", none)]).2.length
      = 1 + 1 :=
  default_hyperparameters_mutated (fun _ => [("x", (1 : Nat))]) "DeltaQFastCharge"
    [("x", 5)] [("DeltaQFastCharge", none)] (by decide)

/-! ## Claim C1: one outcome per (file, step) pair under halt_on_error=false -/

/-- Without halt_on_error the inner featurizer loop never raises. -/
theorem featurizeStepsLoop_no_halt_err (d f : String) (ss : List FStep) :
    ∀ acc, (featurizeStepsLoop false d f acc ss).2 = none := by
  induction ss with
  | nil =>
    intro acc
    rfl
  | cons st rest ih =>
    intro acc
    simp only [featurizeStepsLoop, Bool.and_false, Bool.false_eq_true, if_false]
    exact ih _

/-- The inner loop preserves the dict invariant. -/
theorem featurizeStepsLoop_dictlike (d f : String) (ss : List FStep) :
    ∀ acc, Dictlike acc → Dictlike (featurizeStepsLoop false d f acc ss).1 := by
  induction ss with
  | nil =>
    intro acc h
    exact h
  | cons st rest ih =>
    intro acc h
    simp only [featurizeStepsLoop, Bool.and_false, Bool.false_eq_true, if_false]
    exact ih _ (dictlike_dinsert _ _ _ h)

/-- A key already bound exactly once stays bound exactly once through the
inner loop (a re-insertion of the same step name replaces the binding). -/
theorem featurizeStepsLoop_pres (d f k : String) (ss : List FStep) :
    ∀ acc, Dictlike acc → countKey k acc = 1 →
      countKey k (featurizeStepsLoop false d f acc ss).1 = 1 := by
  induction ss with
  | nil =>
    intro acc _ h1
    exact h1
  | cons st rest ih =>
    intro acc hd h1
    simp only [featurizeStepsLoop, Bool.and_false, Bool.false_eq_true, if_false]
    by_cases hk : st.name = k
    · subst hk
      exact ih _ (dictlike_dinsert _ _ _ hd) (countKey_dinsert_self _ _ _ hd)
    · exact ih _ (dictlike_dinsert _ _ _ hd)
        (by rw [countKey_dinsert_ne _ _ _ _ hk]; exact h1)

/-- Every configured featurizer ends with exactly one op_result binding,
whatever the per-step behaviours. -/
theorem featurizeStepsLoop_count (d f : String) (ss : List FStep) :
    ∀ acc, Dictlike acc →
      ∀ st ∈ ss, countKey st.name (featurizeStepsLoop false d f acc ss).1 = 1 := by
  induction ss with
  | nil =>
    intro acc _ st hst
    exact absurd hst (List.not_mem_nil st)
  | cons s0 rest ih =>
    intro acc hd st hst
    simp only [featurizeStepsLoop, Bool.and_false, Bool.false_eq_true, if_false]
    rcases List.mem_cons.mp hst with h1 | h2
    · subst h1
      exact featurizeStepsLoop_pres d f st.name rest _ (dictlike_dinsert _ _ _ hd)
        (countKey_dinsert_self _ _ _ hd)
    · exact ih _ (dictlike_dinsert _ _ _ hd) st h2

/-- Without halt_on_error and with every file loading, the outer loop never
raises. -/
theorem featurizeFilesLoop_no_halt_err (d : String) (steps : List FStep)
    (loads : String → Option String) :
    ∀ fs : List String, (∀ f ∈ fs, loads f = none) →
      ∀ acc, (featurizeFilesLoop false d steps loads acc fs).2 = none := by
  intro fs
  induction fs with
  | nil =>
    intro _ acc
    rfl
  | cons f rest ih =>
    intro hl acc
    have hf : loads f = none := hl f (List.mem_cons_self _ _)
    simp only [featurizeFilesLoop, hf, featurizeStepsLoop_no_halt_err]
    exact ih (fun g hg => hl g (List.mem_cons_of_mem _ hg)) _

/-- The outer loop preserves the dict invariant. -/
theorem featurizeFilesLoop_dictlike (d : String) (steps : List FStep)
    (loads : String → Option String) :
    ∀ fs : List String, (∀ f ∈ fs, loads f = none) →
      ∀ acc, Dictlike acc →
        Dictlike (featurizeFilesLoop false d steps loads acc fs).1 := by
  intro fs
  induction fs with
  | nil =>
    intro _ acc h
    exact h
  | cons f rest ih =>
    intro hl acc h
    have hf : loads f = none := hl f (List.mem_cons_self _ _)
    simp only [featurizeFilesLoop, hf, featurizeStepsLoop_no_halt_err]
    exact ih (fun g hg => hl g (List.mem_cons_of_mem _ hg)) _ (dictlike_dinsert _ _ _ h)

/-- A file already carrying its (deterministic) record keeps it through the
rest of the loop: a duplicate occurrence of the file re-inserts the same
record. -/
theorem featurizeFilesLoop_pres (d : String) (steps : List FStep)
    (loads : String → Option String) (g : String) :
    ∀ fs : List String, (∀ f ∈ fs, loads f = none) →
      ∀ acc, Dictlike acc →
        countKey g acc = 1 →
        lookupD g acc = some (featurizeStepsLoop false d g [] steps).1 →
        countKey g (featurizeFilesLoop false d steps loads acc fs).1 = 1 ∧
        lookupD g (featurizeFilesLoop false d steps loads acc fs).1
          = some (featurizeStepsLoop false d g [] steps).1 := by
  intro fs
  induction fs with
  | nil =>
    intro _ acc _ h1 h2
    exact ⟨h1, h2⟩
  | cons f rest ih =>
    intro hl acc hd h1 h2
    have hf : loads f = none := hl f (List.mem_cons_self _ _)
    simp only [featurizeFilesLoop, hf, featurizeStepsLoop_no_halt_err]
    by_cases hfg : f = g
    · subst hfg
      exact ih (fun x hx => hl x (List.mem_cons_of_mem _ hx)) _
        (dictlike_dinsert _ _ _ hd)
        (countKey_dinsert_self _ _ _ hd)
        (lookupD_dinsert_self _ _ _)
    · exact ih (fun x hx => hl x (List.mem_cons_of_mem _ hx)) _
        (dictlike_dinsert _ _ _ hd)
        (by rw [countKey_dinsert_ne _ _ _ _ hfg]; exact h1)
        (by rw [lookupD_dinsert_ne _ _ _ _ hfg]; exact h2)

/-- Every processed file ends with exactly one status_json binding, holding
its deterministic per-step record. -/
theorem featurizeFilesLoop_covers (d : String) (steps : List FStep)
    (loads : String → Option String) :
    ∀ fs : List String, (∀ f ∈ fs, loads f = none) →
      ∀ acc, Dictlike acc →
        ∀ g ∈ fs,
          countKey g (featurizeFilesLoop false d steps loads acc fs).1 = 1 ∧
          lookupD g (featurizeFilesLoop false d steps loads acc fs).1
            = some (featurizeStepsLoop false d g [] steps).1 := by
  intro fs
  induction fs with
  | nil =>
    intro _ acc _ g hg
    exact absurd hg (List.not_mem_nil g)
  | cons f rest ih =>
    intro hl acc hd g hg
    have hf : loads f = none := hl f (List.mem_cons_self _ _)
    simp only [featurizeFilesLoop, hf, featurizeStepsLoop_no_halt_err]
    rcases List.mem_cons.mp hg with h1 | h2
    · subst h1
      exact featurizeFilesLoop_pres d steps loads g rest
        (fun x hx => hl x (List.mem_cons_of_mem _ hx)) _
        (dictlike_dinsert _ _ _ hd)
        (countKey_dinsert_self _ _ _ hd)
        (lookupD_dinsert_self _ _ _)
    · exact ih (fun x hx => hl x (List.mem_cons_of_mem _ hx)) _
        (dictlike_dinsert _ _ _ hd) g h2

/-- Claim C1 (confirmed).  With halt_on_error=false, once every input file
loads, the featurize run returns normally and the report holds exactly one
file record per resolved file and, inside it, exactly one outcome per
configured featurizer — no matter how many steps fail or raise during
validation or execution (the behaviours are universally quantified).  The
loading hypothesis reflects that md5sum/auto_load_processed (lines 701,
706) sit outside the try block, and a (file, step) pair is identified by
the absolutised file path and the step's class name, exactly the keys of
status_json and op_result. -/
theorem featurize_one_outcome_per_pair
    (cwd : String) (files : List String) (output_dir : Option String)
    (steps : List FStep) (loads : String → Option String)
    (hload : ∀ f ∈ files, loads (abspath cwd f) = none) :
    (runFeaturize false cwd files output_dir steps loads).2 = none ∧
    ∀ f ∈ files,
      countKey (abspath cwd f)
        (runFeaturize false cwd files output_dir steps loads).1 = 1 ∧
      ∃ fileRecord,
        lookupD (abspath cwd f)
          (runFeaturize false cwd files output_dir steps loads).1 = some fileRecord ∧
        ∀ st ∈ steps, countKey st.name fileRecord = 1 := by
  have hl : ∀ g ∈ files.map (abspath cwd), loads g = none := by
    intro g hg
    rcases List.mem_map.mp hg with ⟨f, hf, rfl⟩
    exact hload f hf
  constructor
  · exact featurizeFilesLoop_no_halt_err _ steps loads _ hl []
  · intro f hf
    have hmem : abspath cwd f ∈ files.map (abspath cwd) := List.mem_map_of_mem _ hf
    have hcov := featurizeFilesLoop_covers (featurizeOutDir cwd output_dir)
      steps loads _ hl [] dictlike_nil _ hmem
    refine ⟨hcov.1, ⟨_, hcov.2, ?_⟩⟩
    intro st hst
    exact featurizeStepsLoop_count _ (abspath cwd f) steps [] dictlike_nil st hst

/-- Witness for featurize_one_outcome_per_pair: one file, two featurizers,
one invalid and one raising during create_features. -/
theorem featurize_one_outcome_per_pair_witness :
    (runFeaturize false "/w" ["/w/a"] none
        [⟨"S1", fun _ => .invalid "bad"⟩, ⟨"S2", fun _ => .raisedCreate "boom"⟩]
        (fun _ => none)).2 = none ∧
    ∀ f ∈ ["/w/a"],
      countKey (abspath "/w" f)
        (runFeaturize false "/w" ["/w/a"] none
          [⟨"S1", fun _ => .invalid "bad"⟩, ⟨"S2", fun _ => .raisedCreate "boom"⟩]
          (fun _ => none)).1 = 1 ∧
      ∃ fileRecord,
        lookupD (abspath "/w" f)
          (runFeaturize false "/w" ["/w/a"] none
            [⟨"S1", fun _ => .invalid "bad"⟩, ⟨"S2", fun _ => .raisedCreate "boom"⟩]
            (fun _ => none)).1 = some fileRecord ∧
        ∀ st ∈ [FStep.mk "S1" (fun _ => .invalid "bad"),
                FStep.mk "S2" (fun _ => .raisedCreate "boom")],
          countKey st.name fileRecord = 1 :=
  featurize_one_outcome_per_pair "/w" ["/w/a"] none
    [⟨"S1", fun _ => .invalid "bad"⟩, ⟨"S2", fun _ => .raisedCreate "boom"⟩]
    (fun _ => none) (fun _ _ => rfl)

/-! ## Claim C7: halt_on_error=true stops at the first failure -/

/-- When every configured featurizer succeeds on a file, halting and
non-halting inner loops agree (no failure is ever hit). -/
theorem featurizeStepsLoop_all_ok (halt : Bool) (d f : String) :
    ∀ ss : List FStep, (∀ st ∈ ss, st.behave f = .ok) →
      ∀ acc, featurizeStepsLoop halt d f acc ss
        = featurizeStepsLoop false d f acc ss := by
  intro ss
  induction ss with
  | nil =>
    intro _ acc
    rfl
  | cons st rest ih =>
    intro hok acc
    have h0 : st.behave f = .ok := hok st (List.mem_cons_self _ _)
    simp only [featurizeStepsLoop, h0, stepFails, Bool.false_and, Bool.and_false,
      Bool.false_eq_true, if_false]
    exact ih (fun x hx => hok x (List.mem_cons_of_mem _ hx)) _

/-- With halt_on_error, the inner loop re-raises the first failing
featurizer's exception. -/
theorem featurizeStepsLoop_halt_err (d f : String) (sbad : FStep) (s2 : List FStep)
    (hbad : stepFails (sbad.behave f) = true) :
    ∀ s1 : List FStep, (∀ st ∈ s1, st.behave f = .ok) →
      ∀ acc, (featurizeStepsLoop true d f acc (s1 ++ sbad :: s2)).2
        = some (.reraised (fresultExc (sbad.behave f))) := by
  intro s1
  induction s1 with
  | nil =>
    intro _ acc
    simp [featurizeStepsLoop, hbad]
  | cons st rest ih =>
    intro hok acc
    have h0 : st.behave f = .ok := hok st (List.mem_cons_self _ _)
    simp only [List.cons_append, featurizeStepsLoop, h0, stepFails,
      Bool.false_and, Bool.false_eq_true, if_false]
    exact ih (fun x hx => hok x (List.mem_cons_of_mem _ hx)) _

/-- Over files whose every featurizer succeeds (and which all load),
halting and non-halting outer loops agree. -/
theorem featurizeFilesLoop_all_ok_halt (d : String) (steps : List FStep)
    (loads : String → Option String) :
    ∀ fs : List String,
      (∀ f ∈ fs, loads f = none ∧ ∀ st ∈ steps, st.behave f = .ok) →
      ∀ acc, featurizeFilesLoop true d steps loads acc fs
        = featurizeFilesLoop false d steps loads acc fs := by
  intro fs
  induction fs with
  | nil =>
    intro _ acc
    rfl
  | cons f rest ih =>
    intro hok acc
    obtain ⟨hfl, hfok⟩ := hok f (List.mem_cons_self _ _)
    have hsl : featurizeStepsLoop true d f [] steps
        = featurizeStepsLoop false d f [] steps :=
      featurizeStepsLoop_all_ok true d f steps hfok []
    simp only [featurizeFilesLoop, hfl, hsl, featurizeStepsLoop_no_halt_err]
    exact ih (fun x hx => hok x (List.mem_cons_of_mem _ hx)) _

/-- A file never processed gets no status_json entry. -/
theorem featurizeFilesLoop_absent (d : String) (steps : List FStep)
    (loads : String → Option String) (g : String) :
    ∀ fs : List String, (∀ f ∈ fs, loads f = none) → g ∉ fs →
      ∀ acc, lookupD g acc = none →
        lookupD g (featurizeFilesLoop false d steps loads acc fs).1 = none := by
  intro fs
  induction fs with
  | nil =>
    intro _ _ acc h
    exact h
  | cons f rest ih =>
    intro hl hg acc h
    have hf : loads f = none := hl f (List.mem_cons_self _ _)
    have hfg : f ≠ g := fun hh => hg (hh ▸ List.mem_cons_self _ _)
    simp only [featurizeFilesLoop, hf, featurizeStepsLoop_no_halt_err]
    exact ih (fun x hx => hl x (List.mem_cons_of_mem _ hx))
      (fun hx => hg (List.mem_cons_of_mem _ hx)) _
      (by rw [lookupD_dinsert_ne _ _ _ _ hfg]; exact h)

/-- Running the outer loop with halt_on_error over an all-succeeding prefix
followed by a file whose inner loop raises yields the prefix's report and
the raised error: the failing file and everything after it are dropped. -/
theorem featurizeFilesLoop_halt_at (d : String) (steps : List FStep)
    (loads : String → Option String) (bad : String) (post : List String)
    (e : CmdError) (hbadload : loads bad = none)
    (hbaderr : (featurizeStepsLoop true d bad [] steps).2 = some e) :
    ∀ fs : List String,
      (∀ f ∈ fs, loads f = none ∧ ∀ st ∈ steps, st.behave f = .ok) →
      ∀ acc, featurizeFilesLoop true d steps loads acc (fs ++ bad :: post)
        = ((featurizeFilesLoop true d steps loads acc fs).1, some e) := by
  intro fs
  induction fs with
  | nil =>
    intro _ acc
    simp only [List.nil_append, featurizeFilesLoop, hbadload, hbaderr]
  | cons f rest ih =>
    intro hok acc
    obtain ⟨hfl, hfok⟩ := hok f (List.mem_cons_self _ _)
    have hsl : featurizeStepsLoop true d f [] steps
        = featurizeStepsLoop false d f [] steps :=
      featurizeStepsLoop_all_ok true d f steps hfok []
    simp only [List.cons_append, featurizeFilesLoop, hfl, hsl,
      featurizeStepsLoop_no_halt_err]
    exact ih (fun x hx => hok x (List.mem_cons_of_mem _ hx)) _

/-- Claim C7 (confirmed).  Under halt_on_error=true, when every file before
the failing one loads and fully succeeds, and the failing file's inner loop
hits its first failure (a data-quality failure re-raised at line 734, or a
processing exception), the exception is re-raised to the invocation
boundary (failure signal), and the report equals the prefix-only report:
one outcome record per fully processed earlier file, and no record at all
for the failing file (its partial op_result is discarded) or any later
file. -/
theorem featurize_halt_partial_report
    (cwd : String) (pre : List String) (bad : String) (post : List String)
    (output_dir : Option String) (steps : List FStep) (loads : String → Option String)
    (s1 : List FStep) (sbad : FStep) (s2 : List FStep)
    (hsteps : steps = s1 ++ sbad :: s2)
    (hs1 : ∀ st ∈ s1, st.behave (abspath cwd bad) = .ok)
    (hbad : stepFails (sbad.behave (abspath cwd bad)) = true)
    (hbadload : loads (abspath cwd bad) = none)
    (hpre : ∀ f ∈ pre, loads (abspath cwd f) = none ∧
      ∀ st ∈ steps, st.behave (abspath cwd f) = .ok)
    (hbadnot : abspath cwd bad ∉ pre.map (abspath cwd))
    (hpostnot : ∀ g ∈ post, abspath cwd g ∉ pre.map (abspath cwd)) :
    runFeaturize true cwd (pre ++ bad :: post) output_dir steps loads
      = ((runFeaturize true cwd pre output_dir steps loads).1,
         some (.reraised (fresultExc (sbad.behave (abspath cwd bad))))) ∧
    (∀ f ∈ pre, countKey (abspath cwd f)
        (runFeaturize true cwd (pre ++ bad :: post) output_dir steps loads).1 = 1) ∧
    lookupD (abspath cwd bad)
      (runFeaturize true cwd (pre ++ bad :: post) output_dir steps loads).1 = none ∧
    ∀ g ∈ post, lookupD (abspath cwd g)
      (runFeaturize true cwd (pre ++ bad :: post) output_dir steps loads).1 = none := by
  have hpre' : ∀ f ∈ pre.map (abspath cwd),
      loads f = none ∧ ∀ st ∈ steps, st.behave f = .ok := by
    intro g hg
    rcases List.mem_map.mp hg with ⟨f, hf, rfl⟩
    exact hpre f hf
  have hl : ∀ f ∈ pre.map (abspath cwd), loads f = none := fun f hf => (hpre' f hf).1
  have hbaderr : (featurizeStepsLoop true (featurizeOutDir cwd output_dir)
      (abspath cwd bad) [] steps).2
      = some (.reraised (fresultExc (sbad.behave (abspath cwd bad)))) := by
    rw [hsteps]
    exact featurizeStepsLoop_halt_err _ (abspath cwd bad) sbad s2 hbad s1 hs1 []
  have hmap : (pre ++ bad :: post).map (abspath cwd)
      = pre.map (abspath cwd) ++ (abspath cwd bad) :: post.map (abspath cwd) := by
    simp
  have hrun : runFeaturize true cwd (pre ++ bad :: post) output_dir steps loads
      = ((featurizeFilesLoop true (featurizeOutDir cwd output_dir)
            steps loads [] (pre.map (abspath cwd))).1,
         some (.reraised (fresultExc (sbad.behave (abspath cwd bad))))) := by
    show featurizeFilesLoop true (featurizeOutDir cwd output_dir)
      steps loads [] ((pre ++ bad :: post).map (abspath cwd)) = _
    rw [hmap]
    exact featurizeFilesLoop_halt_at _ steps loads (abspath cwd bad)
      (post.map (abspath cwd)) _ hbadload hbaderr (pre.map (abspath cwd)) hpre' []
  have hswitch : featurizeFilesLoop true (featurizeOutDir cwd output_dir)
      steps loads [] (pre.map (abspath cwd))
      = featurizeFilesLoop false (featurizeOutDir cwd output_dir)
          steps loads [] (pre.map (abspath cwd)) :=
    featurizeFilesLoop_all_ok_halt _ steps loads (pre.map (abspath cwd)) hpre' []
  refine ⟨hrun, ?_, ?_, ?_⟩
  · intro f hf
    rw [hrun]
    show countKey (abspath cwd f)
      (featurizeFilesLoop true (featurizeOutDir cwd output_dir)
        steps loads [] (pre.map (abspath cwd))).1 = 1
    rw [hswitch]
    exact (featurizeFilesLoop_covers _ steps loads _ hl [] dictlike_nil _
      (List.mem_map_of_mem _ hf)).1
  · rw [hrun]
    show lookupD (abspath cwd bad)
      (featurizeFilesLoop true (featurizeOutDir cwd output_dir)
        steps loads [] (pre.map (abspath cwd))).1 = none
    rw [hswitch]
    exact featurizeFilesLoop_absent _ steps loads _ _ hl hbadnot [] rfl
  · intro g hg
    rw [hrun]
    show lookupD (abspath cwd g)
      (featurizeFilesLoop true (featurizeOutDir cwd output_dir)
        steps loads [] (pre.map (abspath cwd))).1 = none
    rw [hswitch]
    exact featurizeFilesLoop_absent _ steps loads _ _ hl (hpostnot g hg) [] rfl

/-- Witness for featurize_halt_partial_report: three files, one featurizer
raising on the second file; the report keeps only file 1 and the run
signals failure with the re-raised exception. -/
theorem featurize_halt_partial_report_witness :
    runFeaturize true "/w" ["/w/f1", "/w/f2", "/w/f3"] none
        [⟨"S", fun f => if f = "/w/f2" then FResult.raisedCreate "boom" else .ok⟩]
        (fun _ => none)
      = ((runFeaturize true "/w" ["/w/f1"] none
            [⟨"S", fun f => if f = "/w/f2" then FResult.raisedCreate "boom" else .ok⟩]
            (fun _ => none)).1,
         some (CmdError.reraised "boom")) ∧
    (∀ f ∈ ["/w/f1"], countKey (abspath "/w" f)
        (runFeaturize true "/w" ["/w/f1", "/w/f2", "/w/f3"] none
          [⟨"S", fun f => if f = "/w/f2" then FResult.raisedCreate "boom" else .ok⟩]
          (fun _ => none)).1 = 1) ∧
    lookupD (abspath "/w" "/w/f2")
      (runFeaturize true "/w" ["/w/f1", "/w/f2", "/w/f3"] none
        [⟨"S", fun f => if f = "/w/f2" then FResult.raisedCreate "boom" else .ok⟩]
        (fun _ => none)).1 = none ∧
    ∀ g ∈ ["/w/f3"], lookupD (abspath "/w" g)
      (runFeaturize true "/w" ["/w/f1", "/w/f2", "/w/f3"] none
        [⟨"S", fun f => if f = "/w/f2" then FResult.raisedCreate "boom" else .ok⟩]
        (fun _ => none)).1 = none :=
  featurize_halt_partial_report "/w" ["/w/f1"] "/w/f2" ["/w/f3"] none
    [⟨"S", fun f => if f = "/w/f2" then FResult.raisedCreate "boom" else .ok⟩]
    (fun _ => none)
    [] ⟨"S", fun f => if f = "/w/f2" then FResult.raisedCreate "boom" else .ok⟩ []
    rfl
    (fun st hst => absurd hst (List.not_mem_nil st))
    (by decide)
    rfl
    (by
      intro f hf
      rw [List.mem_singleton] at hf
      subst hf
      refine ⟨rfl, ?_⟩
      intro st hst
      rw [List.mem_singleton] at hst
      subst hst
      decide)
    (by decide)
    (by
      intro g hg
      rw [List.mem_singleton] at hg
      subst hg
      decide)
